import Mathlib

/-!
# bunny-logs-downloader: the batch fetch loop of `main.go`

A shallow embedding of the `download` command of `main.go`.

* Go `int` values are `Int`s kept in the signed 64-bit range by `wrapInt`
  after every `+` and `*`, as Go's arithmetic does on a 64-bit platform.
* The outside world is explicit.  Every call of a library function whose
  outcome the program branches on (`http.NewRequest`, `http.DefaultClient.Do`,
  `gzip.NewReader`, `os.OpenFile`, `io.Copy`, `Close`, `os.MkdirAll`,
  `os.Create`) takes its outcome from an environment value: `SetupEnv` for
  the calls made before the loop and one `BatchEnv` per call of
  `downloadBatch`, the `n`-th call using the `n`-th element of a stream
  `Nat → BatchEnv`.  Since the program is deterministic, a server that answers
  according to the request it receives is a special case of such a stream.
* What the program does to the world is recorded in `World`: the content of
  the output file, the requests handed to `http.DefaultClient.Do` in order and
  the lines printed on standard output.  The program touches one file, at
  `<pullZoneId>/<date>.log`, so the file system is the content of that file.
* The formatting of numbers and dates into the URL and the file name is not
  modelled: a `Request` holds the values that are formatted into the URL.
* The `for moreToDownload` loop is run with fuel: `loop fuel` executes at
  most `fuel` loop bodies.  The result of a run carries a `Status`, which is
  `running` when the loop has not ended within the fuel, together with what
  the run has done to the world up to then, so the definitions are total and a
  run that never ends is one that is `running` for every fuel.
* The integer flags of the command are modelled with the behaviour of the
  standard `flag` package underneath `urfave/cli`: registering a flag stores
  its default in its destination, and an option on the command line stores
  its value there.  Environment variables, the `token` flag and the `date`
  flag are left out.
-/

namespace BunnyLogs

/-! ## Go integers -/

/-- Two's-complement wrap-around of a mathematical integer into the range of a
64-bit Go `int`, `-2^63 ≤ x < 2^63`. -/
def wrapInt (x : Int) : Int := (x + 2 ^ 63) % 2 ^ 64 - 2 ^ 63

/-- Go `a + b` on `int`. -/
def goAdd (a b : Int) : Int := wrapInt (a + b)

/-- Go `a * b` on `int`. -/
def goMul (a b : Int) : Int := wrapInt (a * b)

/-- Go `a % b` on `int`: the remainder of the division truncated towards zero. -/
def goRem (a b : Int) : Int := Int.tmod a b

/-! ## Errors -/

/-- Go `error` values as far as the program tells them apart: the sentinel
`io.EOF`, any other error a library call returns, and the errors the program
builds itself with `fmt.Errorf` and a `%w` verb (format string, the values of
the `%v` verbs, the wrapped error). -/
inductive GoError where
  | eof : GoError
  | lib (msg : String) : GoError
  | errorf (format : String) (args : List Int) (wrapped : GoError) : GoError
deriving DecidableEq, Repr

/-- The chain of `errors.Unwrap`: whether `e` is `target` or wraps it at some depth. -/
def GoError.wraps : GoError → GoError → Bool
  | .errorf f a w, target => (GoError.errorf f a w == target) || GoError.wraps w target
  | e, target => e == target

/-! ## Data model -/

/-- A byte of the output file or of a decompressed body. -/
abbrev Byte := Nat

/-- A calendar date, the value of the `date` flag. -/
structure Date where
  year : Nat
  month : Nat
  day : Nat
deriving DecidableEq, Repr

/-- The package-level variables of `main.go` once the flags are parsed. -/
structure Config where
  token : String
  pullZoneId : Int
  startOffset : Int
  batchSize : Int
  date : Date
deriving DecidableEq, Repr

/-- The request built in `downloadBatch`: the fields substituted into the URL
`https://logging.bunnycdn.com/<date>/<pullZoneId>.log?sort=desc&start=<startParam>&end=<endParam>`
and the two headers added to it. -/
structure Request where
  date : Date
  pullZoneId : Int
  startParam : Int
  endParam : Int
  accessKey : String
  acceptEncoding : String
deriving DecidableEq, Repr

/-- A line printed on standard output. -/
inductive Line where
  | downloadedBatch (start : Int) : Line
  | downloadedAllLogs : Line
deriving DecidableEq, Repr

/-- The outcomes of the library calls of one call of `downloadBatch`, in the
order the calls are made.  A field is consulted only when the call is reached.
`copyBytes` are the bytes `io.Copy` appended to the output file (the whole
decompressed body when `copyErr` is `none`) and `copyErr` the error it
returned. -/
structure BatchEnv where
  newRequest : Option GoError
  doErr : Option GoError
  statusCode : Nat
  gzipNewReader : Option GoError
  openFile : Option GoError
  copyBytes : List Byte
  copyErr : Option GoError
  close : Option GoError
deriving DecidableEq, Repr

/-- The outcomes of the library calls made before the loop. -/
structure SetupEnv where
  mkdirAll : Option GoError
  create : Option GoError
  close : Option GoError
deriving DecidableEq, Repr

/-- The environment of a run. -/
structure Env where
  setup : SetupEnv
  batches : Nat → BatchEnv

/-- The observable state of the world during the loop. -/
structure World where
  file : List Byte
  requests : List Request
  stdout : List Line
deriving DecidableEq, Repr

/-- `http.StatusNoContent`. -/
def StatusNoContent : Nat := 204

/-- `http.StatusOK`. -/
def StatusOK : Nat := 200

/-! ## `downloadBatch` -/

/-- The request of `downloadBatch(start, _)`: `start` and `start+batchSize`
go into the URL. -/
def mkRequest (cfg : Config) (start : Int) : Request :=
  { date := cfg.date
    pullZoneId := cfg.pullZoneId
    startParam := start
    endParam := goAdd start cfg.batchSize
    accessKey := cfg.token
    acceptEncoding := "gzip" }

/-- The function `downloadBatch` of `main.go`, lines 105-149. -/
def downloadBatch (cfg : Config) (e : BatchEnv) (start : Int) (w : World) :
    Except GoError Bool × World :=
  match e.newRequest with
  | some err => (.error (.errorf "create request: %w" [] err), w)
  | none =>
    let w1 : World := { w with requests := w.requests ++ [mkRequest cfg start] }
    match e.doErr with
    | some err => (.error (.errorf "perform request: %w" [] err), w1)
    | none =>
      if e.statusCode = StatusNoContent then (.ok false, w1)
      else
        match e.gzipNewReader with
        | some err =>
          if err = GoError.eof then (.ok false, w1)
          else (.error (.errorf "create gzip reader: %w" [] err), w1)
        | none =>
          match e.openFile with
          | some err => (.error (.errorf "open output file: %w" [] err), w1)
          | none =>
            let w2 : World := { w1 with file := w1.file ++ e.copyBytes }
            match e.copyErr with
            | some err =>
              if err = GoError.eof then (.ok false, w2)
              else (.error (.errorf "read: %w" [] err), w2)
            | none =>
              match e.close with
              | some err => (.error (.errorf "close output file: %w" [] err), w2)
              | none => (.ok (decide (0 < e.copyBytes.length)), w2)

/-! ## The `download` action -/

/-- How a run stands: still inside the loop, or returned with an error value
(`none` for `nil`). -/
inductive Status where
  | running : Status
  | returned (err : Option GoError) : Status
deriving DecidableEq, Repr

/-- What is observed of a run of the action: its status, the content of the
output file (`none` when the file does not exist), the requests issued, the
lines printed, and the number of loop bodies that ran to their end, that is,
of iterations whose `downloadBatch` returned a `nil` error. -/
structure RunResult where
  status : Status
  file : Option (List Byte)
  requests : List Request
  stdout : List Line
  completed : Nat
deriving DecidableEq, Repr

/-- The variables of the loop of the action: `start`, `moreToDownload`, the
number of loop bodies completed so far, and the world. -/
structure LoopState where
  start : Int
  moreToDownload : Bool
  calls : Nat
  world : World
deriving DecidableEq, Repr

/-- The loop is interrupted in state `st` because the fuel is used up. -/
def suspend (st : LoopState) : RunResult :=
  { status := Status.running
    file := some st.world.file
    requests := st.world.requests
    stdout := st.world.stdout
    completed := st.calls }

/-- The statements after the loop, lines 94-96: print the completion line,
return `nil`. -/
def finish (st : LoopState) : RunResult :=
  { status := Status.returned none
    file := some st.world.file
    requests := st.world.requests
    stdout := st.world.stdout ++ [Line.downloadedAllLogs]
    completed := st.calls }

/-- The `return fmt.Errorf("download batch with start %v: %w", start, err)` of
the loop body, line 87; `w` is the world `downloadBatch` left. -/
def abort (st : LoopState) (err : GoError) (w : World) : RunResult :=
  { status := Status.returned (some (.errorf "download batch with start %v: %w" [st.start] err))
    file := some w.file
    requests := w.requests
    stdout := w.stdout
    completed := st.calls }

/-- The progress line of the loop body, lines 89-91. -/
def progress (start : Int) (w : World) : World :=
  if goRem start 10 = 0 then { w with stdout := w.stdout ++ [Line.downloadedBatch start] }
  else w

/-- One execution of the loop body, lines 85-92, with the environment `e` of
its call of `downloadBatch`: either the action returns or the loop variables
are updated. -/
def body (cfg : Config) (e : BatchEnv) (st : LoopState) : Except RunResult LoopState :=
  match downloadBatch cfg e (goMul st.start cfg.batchSize) st.world with
  | (.error err, w) => .error (abort st err w)
  | (.ok more, w) =>
    .ok { start := goAdd st.start 1
          moreToDownload := more
          calls := st.calls + 1
          world := progress st.start w }

/-- The loop `for moreToDownload { ... }` of the action, lines 84-93, with at
most `fuel` executions of its body. -/
def loop (cfg : Config) (batches : Nat → BatchEnv) : Nat → LoopState → RunResult
  | 0, st => if st.moreToDownload then suspend st else finish st
  | fuel + 1, st =>
    if st.moreToDownload then
      match body cfg (batches st.calls) st with
      | .error r => r
      | .ok st1 => loop cfg batches fuel st1
    else finish st

/-- The state in which the loop is entered, lines 81-82, the output file
having just been created empty. -/
def initialState (cfg : Config) : LoopState :=
  { start := cfg.startOffset
    moreToDownload := true
    calls := 0
    world := { file := [], requests := [], stdout := [] } }

/-- The `Action` of the `download` command, lines 66-97.  `prior` is the
output file before the run (`none` when it does not exist). -/
def Action (fuel : Nat) (cfg : Config) (env : Env) (prior : Option (List Byte)) : RunResult :=
  match env.setup.mkdirAll with
  | some err =>
    { status := Status.returned (some (.errorf "create output folder: %w" [] err))
      file := prior, requests := [], stdout := [], completed := 0 }
  | none =>
    match env.setup.create with
    | some err =>
      { status := Status.returned (some (.errorf "create output file: %w" [] err))
        file := prior, requests := [], stdout := [], completed := 0 }
    | none =>
      match env.setup.close with
      | some err =>
        { status := Status.returned (some (.errorf "write output file: %w" [] err))
          file := some [], requests := [], stdout := [], completed := 0 }
      | none => loop cfg env.batches fuel (initialState cfg)

/-! ## Command-line flags -/

/-- The package-level `int` variables a flag of the command can be bound to. -/
inductive Var where
  | pullZoneId : Var
  | startOffset : Var
  | batchSize : Var
deriving DecidableEq, Repr

/-- The package-level `int` variables, lines 20-26. -/
structure Globals where
  pullZoneId : Int
  startOffset : Int
  batchSize : Int
deriving DecidableEq, Repr

/-- The values of the `var` block: `pullZoneId` has the zero value,
`startOffset int = 0`, `batchSize int = 2_000`. -/
def initialGlobals : Globals := { pullZoneId := 0, startOffset := 0, batchSize := 2000 }

/-- A `cli.IntFlag` literal: its `Name`, `Value` and the variable its
`Destination` points to. -/
structure IntFlag where
  name : String
  value : Int
  destination : Var
deriving DecidableEq, Repr

/-- The `cli.IntFlag` literals of the `download` command, lines 40-57, in
order.  `Value: batchSize` is evaluated when the literal is built, to 2000. -/
def downloadFlags : List IntFlag :=
  [ { name := "pull-zone-id", value := 0, destination := Var.pullZoneId },
    { name := "start-offset", value := initialGlobals.batchSize, destination := Var.batchSize },
    { name := "batch-size", value := initialGlobals.batchSize, destination := Var.batchSize } ]

/-- Store through a `Destination` pointer. -/
def Globals.store (g : Globals) (v : Var) (x : Int) : Globals :=
  match v with
  | .pullZoneId => { g with pullZoneId := x }
  | .startOffset => { g with startOffset := x }
  | .batchSize => { g with batchSize := x }

/-- Registering the flags: as `flag.IntVar` does, each flag stores its
`Value` in its destination, in the order of the literals. -/
def registerFlags (flags : List IntFlag) (g : Globals) : Globals :=
  flags.foldl (fun acc f => acc.store f.destination f.value) g

/-- Parsing the options given on the command line, in order: an option stores
its value in the destination of the flag of that name; an option that names
no flag is an error (`none`). -/
def parseOptions (flags : List IntFlag) : List (String × Int) → Globals → Option Globals
  | [], g => some g
  | (name, x) :: rest, g =>
    match flags.find? (fun f => f.name == name) with
    | some f => parseOptions flags rest (g.store f.destination x)
    | none => none

/-- The package-level variables when the action starts, for the integer
options `options` of the command line. -/
def parseCommandLine (options : List (String × Int)) : Option Globals :=
  parseOptions downloadFlags options (registerFlags downloadFlags initialGlobals)

/-- The configuration of the action for an access key, a date and the
package-level `int` variables. -/
def configOf (token : String) (date : Date) (g : Globals) : Config :=
  { token := token, pullZoneId := g.pullZoneId, startOffset := g.startOffset
    batchSize := g.batchSize, date := date }

/-! ## Shapes of a batch environment -/

/-- The request is built and answered with an HTTP status other than 204. -/
def BatchEnv.HasBody (e : BatchEnv) : Prop :=
  e.newRequest = none ∧ e.doErr = none ∧ e.statusCode ≠ StatusNoContent

/-- The body is a gzip stream that decompresses to `b` without error, and the
output file is opened, extended by `b` and closed without error. -/
def BatchEnv.Appends (e : BatchEnv) (b : List Byte) : Prop :=
  e.gzipNewReader = none ∧ e.openFile = none ∧ e.copyBytes = b ∧ e.copyErr = none ∧
    e.close = none

/-- The batch is answered with a status other than 204 (HTTP 200, say) and a
body that decompresses to the non-empty `b`, which is appended to the file. -/
def BatchEnv.Delivers (e : BatchEnv) (b : List Byte) : Prop :=
  e.HasBody ∧ e.Appends b ∧ b ≠ []

/-- The batch is answered with HTTP 204. -/
def BatchEnv.NoContent (e : BatchEnv) : Prop :=
  e.newRequest = none ∧ e.doErr = none ∧ e.statusCode = StatusNoContent

/-- The batch is answered with a status other than 204 and a body that
decompresses to zero bytes: either the body is empty, so that
`gzip.NewReader` reports `io.EOF`, or it is a gzip stream of no bytes. -/
def BatchEnv.EmptyBody (e : BatchEnv) : Prop :=
  e.HasBody ∧ (e.gzipNewReader = some GoError.eof ∨ e.Appends [])

/-- The request is built and `http.DefaultClient.Do` fails with `err`. -/
def BatchEnv.TransportError (e : BatchEnv) (err : GoError) : Prop :=
  e.newRequest = none ∧ e.doErr = some err

/-- The batch is answered with a status other than 204 and a gzip stream that
yields the bytes `p` and then the error `err`, which is not `io.EOF`: either
`gzip.NewReader` fails with `err` (and `p` is empty), or `io.Copy`, the output
file being open, appends `p` and returns `err`. -/
def BatchEnv.DecodeError (e : BatchEnv) (p : List Byte) (err : GoError) : Prop :=
  e.HasBody ∧ err ≠ GoError.eof ∧
    ((e.gzipNewReader = some err ∧ p = []) ∨
      (e.gzipNewReader = none ∧ e.openFile = none ∧ e.copyBytes = p ∧ e.copyErr = some err))

/-- The calls made before the loop succeed. -/
def SetupEnv.Ok (s : SetupEnv) : Prop :=
  s.mkdirAll = none ∧ s.create = none ∧ s.close = none

/-! ## Traces -/

/-- The value of the loop variable `start` after `n` executions of
`start += 1` from `s`. -/
def startAt (s : Int) (n : Nat) : Int := (fun x => goAdd x 1)^[n] s

/-- The batch index of the `i`-th iteration of the loop (counted from 0). -/
def batchIndex (cfg : Config) (i : Nat) : Int := startAt cfg.startOffset i

/-- The request of the iteration whose batch index is `idx`. -/
def requestFor (cfg : Config) (idx : Int) : Request :=
  mkRequest cfg (goMul idx cfg.batchSize)

/-- The batch indices announced by the progress lines among `lines`. -/
def progressOf (lines : List Line) : List Int :=
  lines.filterMap fun l =>
    match l with
    | .downloadedBatch s => some s
    | .downloadedAllLogs => none


/-! ## Proof devices -/

/-- The loop state after an iteration that delivers the body `b`. -/
def deliver (cfg : Config) (st : LoopState) (b : List Byte) : LoopState :=
  { start := goAdd st.start 1
    moreToDownload := true
    calls := st.calls + 1
    world := progress st.start
      { file := st.world.file ++ b
        requests := st.world.requests ++ [requestFor cfg st.start]
        stdout := st.world.stdout } }

/-- The loop state after iterations that deliver the bodies `bs` in turn. -/
def advance (cfg : Config) (st : LoopState) (bs : List (List Byte)) : LoopState :=
  bs.foldl (deliver cfg) st

/-- The loop state after an iteration that ends the run without error and
without data. -/
def exhaust (cfg : Config) (st : LoopState) : LoopState :=
  { start := goAdd st.start 1
    moreToDownload := false
    calls := st.calls + 1
    world := progress st.start
      { file := st.world.file
        requests := st.world.requests ++ [requestFor cfg st.start]
        stdout := st.world.stdout } }

/-- The progress lines of `n` completed iterations from batch index `s`. -/
def progressFrom (s : Int) (n : Nat) : List Int :=
  ((List.range n).map (startAt s)).filter (fun x => decide (goRem x 10 = 0))

/-- The requests of `n` iterations from batch index `s`. -/
def requestsFrom (cfg : Config) (s : Int) (n : Nat) : List Request :=
  (List.range n).map (fun i => requestFor cfg (startAt s i))

instance (e : BatchEnv) : Decidable e.HasBody := by
  unfold BatchEnv.HasBody; infer_instance

instance (e : BatchEnv) (b : List Byte) : Decidable (e.Appends b) := by
  unfold BatchEnv.Appends; infer_instance

instance (e : BatchEnv) (b : List Byte) : Decidable (e.Delivers b) := by
  unfold BatchEnv.Delivers; infer_instance

instance (e : BatchEnv) : Decidable e.NoContent := by
  unfold BatchEnv.NoContent; infer_instance

instance (e : BatchEnv) : Decidable e.EmptyBody := by
  unfold BatchEnv.EmptyBody; infer_instance

instance (e : BatchEnv) (err : GoError) : Decidable (e.TransportError err) := by
  unfold BatchEnv.TransportError; infer_instance

instance (e : BatchEnv) (p : List Byte) (err : GoError) : Decidable (e.DecodeError p err) := by
  unfold BatchEnv.DecodeError; infer_instance

instance (s : SetupEnv) : Decidable s.Ok := by
  unfold SetupEnv.Ok; infer_instance

/-! ## Sample inputs -/

/-- The configuration of `download --token key --pull-zone-id 7` on 2 January
2024: `startOffset` and `batchSize` keep the values of the `var` block. -/
def sampleConfig : Config :=
  { token := "key", pullZoneId := 7, startOffset := 0, batchSize := 2000
    date := { year := 2024, month := 1, day := 2 } }

/-- The configuration of `--batch-size 9223372036854775807`, the largest `int`. -/
def hugeBatchConfig : Config := { sampleConfig with batchSize := 2 ^ 63 - 1 }

/-- No call before the loop fails. -/
def okSetup : SetupEnv := { mkdirAll := none, create := none, close := none }

/-- A batch answered with status `code` and a gzip body that decompresses to
`b`, every call succeeding. -/
def dataBatch (code : Nat) (b : List Byte) : BatchEnv :=
  { newRequest := none, doErr := none, statusCode := code, gzipNewReader := none
    openFile := none, copyBytes := b, copyErr := none, close := none }

/-- A batch answered with HTTP 204. -/
def noContentBatch : BatchEnv := dataBatch 204 []

/-- A batch answered with HTTP 200 and an empty body: `gzip.NewReader` reports `io.EOF`. -/
def emptyStreamBatch : BatchEnv := { dataBatch 200 [] with gzipNewReader := some GoError.eof }

/-- A batch whose request fails in `http.DefaultClient.Do`. -/
def refusedBatch : BatchEnv :=
  { dataBatch 0 [] with doErr := some (GoError.lib "dial tcp: connection refused") }

/-- A batch answered with HTTP 200 and a gzip stream that breaks off after
the bytes `p`. -/
def truncatedBatch (p : List Byte) : BatchEnv :=
  { dataBatch 200 p with copyErr := some (GoError.lib "unexpected EOF") }

/-- A server that answers the first two requests with HTTP 200 and the bodies
`[1, 5]` and `[2]`, and every later request as `last` says. -/
def twoThen (last : BatchEnv) : Nat → BatchEnv :=
  fun n => if n = 0 then dataBatch 200 [1, 5] else if n = 1 then dataBatch 200 [2] else last

/-- A server that answers every request with HTTP 204. -/
def alwaysNoContent : Nat → BatchEnv := fun _ => noContentBatch

/-- A server that answers every request with HTTP 200 and the one-byte body `[n]`. -/
def alwaysData : Nat → BatchEnv := fun n => dataBatch 200 [n]

/-- A server that answers the first request with HTTP 500 and a gzip body
that decompresses to `[4, 0, 4]`, and every later request with HTTP 204. -/
def serverErrorThenNoContent : Nat → BatchEnv :=
  fun n => if n = 0 then dataBatch 500 [4, 0, 4] else noContentBatch

/-- A server whose first request fails in transport. -/
def refusedAtOnce : Nat → BatchEnv := fun _ => refusedBatch

/-! ## Arithmetic of Go integers -/

theorem wrapInt_of_inRange (x : Int) (h1 : -2 ^ 63 ≤ x) (h2 : x < 2 ^ 63) : wrapInt x = x := by
  unfold wrapInt; omega

theorem startAt_zero (s : Int) : startAt s 0 = s := rfl

theorem startAt_succ (s : Int) (n : Nat) : startAt s (n + 1) = startAt (goAdd s 1) n := rfl

theorem startAt_succ_last (s : Int) (n : Nat) : startAt s (n + 1) = goAdd (startAt s n) 1 := by
  unfold startAt
  exact Function.iterate_succ_apply' _ n s

theorem startAt_eq_add (s : Int) (n : Nat) (h1 : -2 ^ 63 ≤ s) (h2 : s + n < 2 ^ 63) :
    startAt s n = s + n := by
  induction n with
  | zero => simp [startAt_zero]
  | succ n ih =>
    have h3 : s + (n : Int) < 2 ^ 63 := by push_cast at h2; omega
    rw [startAt_succ_last, ih h3]
    unfold goAdd
    push_cast at h2 ⊢
    rw [wrapInt_of_inRange] <;> omega

theorem goRem_ten_eq_zero_iff (x : Int) : goRem x 10 = 0 ↔ x % 10 = 0 := by
  unfold goRem
  constructor
  · intro h
    exact Int.emod_eq_zero_of_dvd (Int.dvd_of_tmod_eq_zero h)
  · intro h
    exact Int.tmod_eq_zero_of_dvd (Int.dvd_of_emod_eq_zero h)

/-! ## One iteration -/

theorem progress_file (s : Int) (w : World) : (progress s w).file = w.file := by
  unfold progress; split <;> rfl

theorem progress_requests (s : Int) (w : World) : (progress s w).requests = w.requests := by
  unfold progress; split <;> rfl

theorem progress_stdout (s : Int) (w : World) :
    (progress s w).stdout
      = w.stdout ++ (if goRem s 10 = 0 then [Line.downloadedBatch s] else []) := by
  unfold progress; split <;> simp

theorem body_delivers (cfg : Config) (e : BatchEnv) (st : LoopState) (b : List Byte)
    (h : e.Delivers b) : body cfg e st = .ok (deliver cfg st b) := by
  obtain ⟨⟨h1, h2, h3⟩, ⟨h4, h5, h6, h7, h8⟩, h9⟩ := h
  have hpos : 0 < b.length := List.length_pos.mpr h9
  simp [body, downloadBatch, deliver, requestFor, h1, h2, h3, h4, h5, h6, h7, h8, hpos]

theorem body_noContent (cfg : Config) (e : BatchEnv) (st : LoopState)
    (h : e.NoContent) : body cfg e st = .ok (exhaust cfg st) := by
  obtain ⟨h1, h2, h3⟩ := h
  simp [body, downloadBatch, exhaust, requestFor, h1, h2, h3]

theorem body_emptyBody (cfg : Config) (e : BatchEnv) (st : LoopState)
    (h : e.EmptyBody) : body cfg e st = .ok (exhaust cfg st) := by
  obtain ⟨⟨h1, h2, h3⟩, h4 | ⟨h4, h5, h6, h7, h8⟩⟩ := h
  · simp [body, downloadBatch, exhaust, requestFor, h1, h2, h3, h4]
  · simp [body, downloadBatch, exhaust, requestFor, h1, h2, h3, h4, h5, h6, h7, h8]

theorem body_transportError (cfg : Config) (e : BatchEnv) (st : LoopState) (err : GoError)
    (h : e.TransportError err) :
    body cfg e st = .error (abort st (.errorf "perform request: %w" [] err)
      { st.world with requests := st.world.requests ++ [requestFor cfg st.start] }) := by
  obtain ⟨h1, h2⟩ := h
  simp [body, downloadBatch, requestFor, h1, h2]

theorem body_decodeError (cfg : Config) (e : BatchEnv) (st : LoopState) (p : List Byte)
    (err : GoError) (h : e.DecodeError p err) :
    ∃ ctx, body cfg e st = .error (abort st (.errorf ctx [] err)
      { st.world with
        file := st.world.file ++ p
        requests := st.world.requests ++ [requestFor cfg st.start] }) := by
  obtain ⟨⟨h1, h2, h3⟩, hne, ⟨h4, h5⟩ | ⟨h4, h5, h6, h7⟩⟩ := h
  · exact ⟨"create gzip reader: %w", by
      simp [body, downloadBatch, requestFor, h1, h2, h3, h4, h5, hne]⟩
  · exact ⟨"read: %w", by
      simp [body, downloadBatch, requestFor, h1, h2, h3, h4, h5, h6, h7, hne]⟩

/-! ## The loop -/

theorem loop_not_more (cfg : Config) (E : Nat → BatchEnv) (fuel : Nat) (st : LoopState)
    (h : st.moreToDownload = false) : loop cfg E fuel st = finish st := by
  cases fuel <;> simp [loop, h]

theorem loop_succ_ok (cfg : Config) (E : Nat → BatchEnv) (fuel : Nat) (st st1 : LoopState)
    (h : st.moreToDownload = true) (hb : body cfg (E st.calls) st = .ok st1) :
    loop cfg E (fuel + 1) st = loop cfg E fuel st1 := by
  simp [loop, h, hb]

theorem loop_succ_error (cfg : Config) (E : Nat → BatchEnv) (fuel : Nat) (st : LoopState)
    (r : RunResult) (h : st.moreToDownload = true) (hb : body cfg (E st.calls) st = .error r) :
    loop cfg E (fuel + 1) st = r := by
  simp [loop, h, hb]

theorem loop_advance (cfg : Config) (E : Nat → BatchEnv) (bs : List (List Byte)) :
    ∀ (fuel : Nat) (st : LoopState), st.moreToDownload = true →
      (∀ i (h : i < bs.length), (E (st.calls + i)).Delivers bs[i]) →
      loop cfg E (bs.length + fuel) st = loop cfg E fuel (advance cfg st bs) := by
  induction bs with
  | nil => intro fuel st _ _; simp [advance]
  | cons b bs ih =>
    intro fuel st hm hd
    have h0 : (E st.calls).Delivers b := by simpa using hd 0 (by simp)
    have hrest : ∀ i (h : i < bs.length),
        (E ((deliver cfg st b).calls + i)).Delivers bs[i] := by
      intro i h
      have := hd (i + 1) (by simpa using h)
      simpa [deliver, Nat.add_assoc, Nat.add_comm 1 i] using this
    have hlen : (b :: bs).length + fuel = (bs.length + fuel) + 1 := by simp; omega
    rw [hlen, loop_succ_ok cfg E _ st _ hm (body_delivers cfg _ st b h0)]
    rw [ih fuel (deliver cfg st b) rfl hrest]
    rfl

theorem advance_more (cfg : Config) (bs : List (List Byte)) :
    ∀ st : LoopState, st.moreToDownload = true → (advance cfg st bs).moreToDownload = true := by
  induction bs with
  | nil => intro st h; exact h
  | cons b bs ih => intro st _; exact ih (deliver cfg st b) rfl

theorem advance_calls (cfg : Config) (bs : List (List Byte)) :
    ∀ st : LoopState, (advance cfg st bs).calls = st.calls + bs.length := by
  induction bs with
  | nil => intro st; rfl
  | cons b bs ih =>
    intro st
    show (advance cfg (deliver cfg st b) bs).calls = _
    rw [ih]; simp [deliver]; omega

theorem advance_start (cfg : Config) (bs : List (List Byte)) :
    ∀ st : LoopState, (advance cfg st bs).start = startAt st.start bs.length := by
  induction bs with
  | nil => intro st; rfl
  | cons b bs ih =>
    intro st
    show (advance cfg (deliver cfg st b) bs).start = _
    rw [ih]; rfl

theorem advance_file (cfg : Config) (bs : List (List Byte)) :
    ∀ st : LoopState, (advance cfg st bs).world.file = st.world.file ++ bs.flatten := by
  induction bs with
  | nil => intro st; simp [advance]
  | cons b bs ih =>
    intro st
    show (advance cfg (deliver cfg st b) bs).world.file = _
    rw [ih]; simp [deliver, progress_file]

theorem requestsFrom_succ (cfg : Config) (s : Int) (n : Nat) :
    requestsFrom cfg s (n + 1) = requestFor cfg s :: requestsFrom cfg (goAdd s 1) n := by
  simp [requestsFrom, List.range_succ_eq_map, List.map_map, Function.comp_def, startAt_zero,
    startAt_succ]

theorem progressFrom_succ (s : Int) (n : Nat) :
    progressFrom s (n + 1)
      = (if goRem s 10 = 0 then [s] else []) ++ progressFrom (goAdd s 1) n := by
  simp only [progressFrom, List.range_succ_eq_map, List.map_cons, List.map_map, startAt_zero]
  have : (startAt s ∘ Nat.succ) = startAt (goAdd s 1) := by
    funext i; simp [Function.comp_def, startAt_succ]
  rw [this, List.filter_cons]
  split <;> simp_all

theorem advance_requests (cfg : Config) (bs : List (List Byte)) :
    ∀ st : LoopState, (advance cfg st bs).world.requests
      = st.world.requests ++ requestsFrom cfg st.start bs.length := by
  induction bs with
  | nil => intro st; simp [advance, requestsFrom]
  | cons b bs ih =>
    intro st
    show (advance cfg (deliver cfg st b) bs).world.requests = _
    rw [ih, List.length_cons, requestsFrom_succ]
    simp [deliver, progress_requests]

theorem advance_stdout (cfg : Config) (bs : List (List Byte)) :
    ∀ st : LoopState, (advance cfg st bs).world.stdout
      = st.world.stdout ++ (progressFrom st.start bs.length).map Line.downloadedBatch := by
  induction bs with
  | nil => intro st; simp [advance, progressFrom]
  | cons b bs ih =>
    intro st
    show (advance cfg (deliver cfg st b) bs).world.stdout = _
    rw [ih, List.length_cons, progressFrom_succ]
    simp only [deliver, progress_stdout]
    split <;> simp


theorem Action_eq_loop (fuel : Nat) (cfg : Config) (env : Env) (prior : Option (List Byte))
    (h : env.setup.Ok) :
    Action fuel cfg env prior = loop cfg env.batches fuel (initialState cfg) := by
  obtain ⟨h1, h2, h3⟩ := h
  simp [Action, h1, h2, h3]

/-- What a call of `downloadBatch` does to the world, whatever the environment:
it prints nothing, and it issues its request, unless it returns an error
before doing so. -/
theorem downloadBatch_shape (cfg : Config) (e : BatchEnv) (start : Int) (w : World) :
    (downloadBatch cfg e start w).2.stdout = w.stdout ∧
    (∀ more, (downloadBatch cfg e start w).1 = .ok more →
      (downloadBatch cfg e start w).2.requests = w.requests ++ [mkRequest cfg start]) ∧
    ((downloadBatch cfg e start w).2.requests = w.requests ∨
      (downloadBatch cfg e start w).2.requests = w.requests ++ [mkRequest cfg start]) := by
  obtain ⟨nr, de, sc, gz, op, cb, ce, cl⟩ := e
  cases nr <;> cases de <;> cases gz <;> cases op <;> cases ce <;> cases cl <;>
    simp [downloadBatch] <;> split_ifs <;> simp

/-- What an execution of the loop body leaves behind, whatever the environment. -/
theorem body_shape (cfg : Config) (e : BatchEnv) (st : LoopState) :
    (∀ r, body cfg e st = .error r →
      (∃ err, r.status = Status.returned (some err)) ∧ r.completed = st.calls ∧
      r.stdout = st.world.stdout ∧
      (r.requests = st.world.requests ∨
        r.requests = st.world.requests ++ [requestFor cfg st.start])) ∧
    (∀ st1, body cfg e st = .ok st1 →
      st1.start = goAdd st.start 1 ∧ st1.calls = st.calls + 1 ∧
      st1.world.requests = st.world.requests ++ [requestFor cfg st.start] ∧
      st1.world.stdout
        = st.world.stdout ++ (if goRem st.start 10 = 0 then [Line.downloadedBatch st.start]
            else [])) := by
  obtain ⟨h1, h2, h3⟩ := downloadBatch_shape cfg e (goMul st.start cfg.batchSize) st.world
  unfold body
  rcases hdb : downloadBatch cfg e (goMul st.start cfg.batchSize) st.world with ⟨res, w⟩
  rw [hdb] at h1 h2 h3
  cases res with
  | error err =>
    refine ⟨?_, fun st1 h => by simp at h⟩
    intro r h
    simp only [Except.error.injEq] at h
    subst h
    exact ⟨⟨_, rfl⟩, rfl, h1, h3⟩
  | ok more =>
    refine ⟨fun r h => by simp at h, ?_⟩
    intro st1 h
    simp only [Except.ok.injEq] at h
    subst h
    refine ⟨rfl, rfl, ?_, ?_⟩
    · simpa [progress_requests] using h2 more rfl
    · simp only [progress_stdout]
      rw [show w.stdout = st.world.stdout from h1]

/-- The requests of a run from a loop state are requests for consecutive
batch indices. -/
theorem loop_requests (cfg : Config) (E : Nat → BatchEnv) (fuel : Nat) :
    ∀ st : LoopState, ∃ m, m ≤ fuel ∧
      (loop cfg E fuel st).requests = st.world.requests ++ requestsFrom cfg st.start m := by
  induction fuel with
  | zero =>
    intro st
    refine ⟨0, le_refl _, ?_⟩
    simp only [loop]
    split <;> simp [suspend, finish, requestsFrom]
  | succ fuel ih =>
    intro st
    by_cases hm : st.moreToDownload = true
    · obtain ⟨herr, hok⟩ := body_shape cfg (E st.calls) st
      cases hb : body cfg (E st.calls) st with
      | error r =>
        rw [loop_succ_error cfg E fuel st r hm hb]
        obtain ⟨_, _, _, h | h⟩ := herr r hb
        · exact ⟨0, Nat.zero_le _, by simp [h, requestsFrom]⟩
        · exact ⟨1, by omega, by rw [h, requestsFrom_succ]; simp [requestsFrom]⟩
      | ok st1 =>
        rw [loop_succ_ok cfg E fuel st st1 hm hb]
        obtain ⟨hs, _, hr, _⟩ := hok st1 hb
        obtain ⟨m, hm1, hm2⟩ := ih st1
        exact ⟨m + 1, by omega, by rw [hm2, hr, hs, requestsFrom_succ]; simp⟩
    · have hm1 : st.moreToDownload = false := by simpa using hm
      exact ⟨0, Nat.zero_le _, by rw [loop_not_more cfg E _ st hm1]; simp [finish, requestsFrom]⟩

/-- The progress lines of a run from a loop state are those of its completed
iterations. -/
theorem loop_progress (cfg : Config) (E : Nat → BatchEnv) (fuel : Nat) :
    ∀ st : LoopState, st.calls ≤ (loop cfg E fuel st).completed ∧
      (loop cfg E fuel st).completed ≤ st.calls + fuel ∧
      progressOf (loop cfg E fuel st).stdout
        = progressOf st.world.stdout
            ++ progressFrom st.start ((loop cfg E fuel st).completed - st.calls) := by
  induction fuel with
  | zero =>
    intro st
    simp only [loop]
    split <;> simp [suspend, finish, progressFrom, progressOf]
  | succ fuel ih =>
    intro st
    by_cases hm : st.moreToDownload = true
    · obtain ⟨herr, hok⟩ := body_shape cfg (E st.calls) st
      cases hb : body cfg (E st.calls) st with
      | error r =>
        rw [loop_succ_error cfg E fuel st r hm hb]
        obtain ⟨_, hc, hs, _⟩ := herr r hb
        simp [hc, hs, progressFrom]
      | ok st1 =>
        rw [loop_succ_ok cfg E fuel st st1 hm hb]
        obtain ⟨hs, hc, _, ho⟩ := hok st1 hb
        obtain ⟨h1, h2, h3⟩ := ih st1
        refine ⟨by omega, by omega, ?_⟩
        have hsub : (loop cfg E fuel st1).completed - st.calls
            = ((loop cfg E fuel st1).completed - st1.calls) + 1 := by omega
        rw [h3, hsub, progressFrom_succ, ho, hs]
        split <;> simp [progressOf]
    · have hm1 : st.moreToDownload = false := by simpa using hm
      rw [loop_not_more cfg E _ st hm1]
      simp [finish, progressFrom, progressOf]

/-! ## Runs that receive data and then stop -/

theorem loop_exhausted (cfg : Config) (E : Nat → BatchEnv) (bs : List (List Byte)) (d : Nat)
    (st : LoopState) (hm : st.moreToDownload = true)
    (hbs : ∀ i (h : i < bs.length), (E (st.calls + i)).Delivers bs[i])
    (hend : (E (st.calls + bs.length)).NoContent ∨ (E (st.calls + bs.length)).EmptyBody) :
    loop cfg E (bs.length + (d + 1)) st = finish (exhaust cfg (advance cfg st bs)) := by
  rw [loop_advance cfg E bs (d + 1) st hm hbs]
  have hm1 := advance_more cfg bs st hm
  have hb : body cfg (E (advance cfg st bs).calls) (advance cfg st bs)
      = .ok (exhaust cfg (advance cfg st bs)) := by
    rw [advance_calls]
    rcases hend with h | h
    · exact body_noContent cfg _ _ h
    · exact body_emptyBody cfg _ _ h
  rw [loop_succ_ok cfg E d _ _ hm1 hb, loop_not_more cfg E d _ rfl]

theorem loop_aborted (cfg : Config) (E : Nat → BatchEnv) (bs : List (List Byte)) (d : Nat)
    (st : LoopState) (r : RunResult) (hm : st.moreToDownload = true)
    (hbs : ∀ i (h : i < bs.length), (E (st.calls + i)).Delivers bs[i])
    (hb : body cfg (E (st.calls + bs.length)) (advance cfg st bs) = .error r) :
    loop cfg E (bs.length + (d + 1)) st = r := by
  rw [loop_advance cfg E bs (d + 1) st hm hbs]
  have hm1 := advance_more cfg bs st hm
  rw [← advance_calls cfg bs st] at hb
  exact loop_succ_error cfg E d _ r hm1 hb

theorem exists_fuel_of_lt (k fuel : Nat) (h : k < fuel) : ∃ d, fuel = k + (d + 1) :=
  ⟨fuel - k - 1, by omega⟩

theorem initial_delivers (cfg : Config) (E : Nat → BatchEnv) (bs : List (List Byte))
    (hbs : ∀ i (h : i < bs.length), (E i).Delivers bs[i]) :
    ∀ i (h : i < bs.length), (E ((initialState cfg).calls + i)).Delivers bs[i] := by
  intro i h
  simpa [initialState] using hbs i h

theorem wraps_self (e : GoError) : e.wraps e = true := by
  cases e <;> simp [GoError.wraps]

theorem wraps_errorf (f : String) (a : List Int) (w t : GoError) (h : w.wraps t = true) :
    (GoError.errorf f a w).wraps t = true := by
  simp [GoError.wraps, h]

/-- Replacing the environment of one batch that is answered 204 by one with an
empty body changes nothing in the loop. -/
theorem loop_update_empty (cfg : Config) (E : Nat → BatchEnv) (k : Nat) (e : BatchEnv)
    (h204 : (E k).NoContent) (hempty : e.EmptyBody) (fuel : Nat) :
    ∀ st : LoopState,
      loop cfg (Function.update E k e) fuel st = loop cfg E fuel st := by
  induction fuel with
  | zero => intro st; rfl
  | succ fuel ih =>
    intro st
    by_cases hm : st.moreToDownload = true
    · by_cases hk : st.calls = k
      · have h1 : body cfg (Function.update E k e st.calls) st = .ok (exhaust cfg st) := by
          rw [hk, Function.update_same]; exact body_emptyBody cfg e st hempty
        have h2 : body cfg (E st.calls) st = .ok (exhaust cfg st) := by
          rw [hk]; exact body_noContent cfg _ st h204
        rw [loop_succ_ok cfg _ fuel st _ hm h1, loop_succ_ok cfg _ fuel st _ hm h2]
        exact ih _
      · have h1 : Function.update E k e st.calls = E st.calls := Function.update_noteq hk _ _
        cases hb : body cfg (E st.calls) st with
        | error r =>
          rw [loop_succ_error cfg _ fuel st r hm (by rw [h1]; exact hb),
            loop_succ_error cfg _ fuel st r hm hb]
        | ok st1 =>
          rw [loop_succ_ok cfg _ fuel st st1 hm (by rw [h1]; exact hb),
            loop_succ_ok cfg _ fuel st st1 hm hb]
          exact ih _
    · have hm1 : st.moreToDownload = false := by simpa using hm
      rw [loop_not_more cfg _ _ st hm1, loop_not_more cfg _ _ st hm1]

/-- A batch whose request is issued and that does not deliver data ends the
run in the iteration it is requested in. -/
theorem loop_stops (cfg : Config) (E : Nat → BatchEnv) (d : Nat) (st : LoopState)
    (hm : st.moreToDownload = true) (hreq : (E st.calls).newRequest = none)
    (hnd : ¬ ∃ b, (E st.calls).Delivers b) :
    (∃ err, (loop cfg E (d + 1) st).status = Status.returned err) ∧
    (loop cfg E (d + 1) st).requests = st.world.requests ++ [requestFor cfg st.start] := by
  have key : (∃ r, body cfg (E st.calls) st = .error r ∧
        r.requests = st.world.requests ++ [requestFor cfg st.start] ∧
        ∃ err, r.status = Status.returned err) ∨
      (∃ st1, body cfg (E st.calls) st = .ok st1 ∧ st1.moreToDownload = false ∧
        st1.world.requests = st.world.requests ++ [requestFor cfg st.start]) := by
    have hnd1 : ∀ b, ¬ (E st.calls).Delivers b := fun b hb => hnd ⟨b, hb⟩
    generalize E st.calls = e at hreq hnd1
    obtain ⟨nr, de, sc, gz, op, cb, ce, cl⟩ := e
    simp only at hreq
    subst hreq
    have hnd2 := hnd1 cb
    simp only [BatchEnv.Delivers, BatchEnv.HasBody, BatchEnv.Appends] at hnd2
    cases de <;> cases gz <;> cases op <;> cases ce <;> cases cl <;>
      simp [body, downloadBatch, abort, requestFor, progress_requests] <;>
      split_ifs <;> simp_all [abort, progress_requests]
  rcases key with ⟨r, hb, hr, hs⟩ | ⟨st1, hb, hm1, hr⟩
  · rw [loop_succ_error cfg E d st r hm hb]
    exact ⟨hs, hr⟩
  · rw [loop_succ_ok cfg E d st st1 hm hb, loop_not_more cfg E d st1 hm1]
    exact ⟨⟨none, rfl⟩, by simpa [finish] using hr⟩

/-! ## The claims -/

/-- C1: if the requests of iterations `0..k-1` (with `startOffset = 0`, batch
indices `0..k-1`) are answered with HTTP 200 and non-empty decompressed bodies
`bs[0], ..., bs[k-1]`, and the request of iteration `k` with HTTP 204 or with
a body that decompresses to zero bytes, then for every batch size and every
prior state of the output file the run, given more than `k` loop bodies of
fuel, returns `nil`, the output file holds exactly the concatenation of the
bodies in order, and its length is the sum of their lengths.  The file system
calls are assumed to succeed. -/
theorem download_concatenates_until_exhausted (cfg : Config) (env : Env)
    (prior : Option (List Byte)) (bs : List (List Byte)) (fuel : Nat)
    (hsetup : env.setup.Ok)
    (hbs : ∀ i (h : i < bs.length), (env.batches i).Delivers bs[i])
    (hend : (env.batches bs.length).NoContent ∨ (env.batches bs.length).EmptyBody)
    (hfuel : bs.length < fuel) :
    (Action fuel cfg env prior).status = Status.returned none ∧
    (Action fuel cfg env prior).file = some bs.flatten ∧
    (Action fuel cfg env prior).file.map List.length = some (bs.map List.length).sum ∧
    (Action fuel cfg env prior).requests
      = (List.range (bs.length + 1)).map (fun i => requestFor cfg (batchIndex cfg i)) := by
  obtain ⟨d, rfl⟩ := exists_fuel_of_lt _ _ hfuel
  rw [Action_eq_loop _ _ _ _ hsetup,
    loop_exhausted cfg env.batches bs d (initialState cfg) rfl
      (initial_delivers cfg env.batches bs hbs) (by simpa [initialState] using hend)]
  have hfile : (finish (exhaust cfg (advance cfg (initialState cfg) bs))).file
      = some bs.flatten := by
    simp [finish, exhaust, progress_file, advance_file, initialState]
  refine ⟨rfl, hfile, ?_, ?_⟩
  · rw [hfile]; simp [List.length_flatten]
  · simp only [finish, exhaust, progress_requests, advance_requests, advance_start]
    simp [initialState, requestsFrom, List.range_succ, batchIndex]

/-- Witness of C1: two bodies and then HTTP 204. -/
theorem download_concatenates_until_exhausted_witness :
    (Action 3 sampleConfig ⟨okSetup, twoThen noContentBatch⟩ (some [9, 9])).status
        = Status.returned none ∧
      (Action 3 sampleConfig ⟨okSetup, twoThen noContentBatch⟩ (some [9, 9])).file
        = some [[1, 5], [2]].flatten ∧
      (Action 3 sampleConfig ⟨okSetup, twoThen noContentBatch⟩ (some [9, 9])).file.map
        List.length = some ([[1, 5], [2]].map List.length).sum ∧
      (Action 3 sampleConfig ⟨okSetup, twoThen noContentBatch⟩ (some [9, 9])).requests
        = (List.range 3).map (fun i => requestFor sampleConfig (batchIndex sampleConfig i)) :=
  download_concatenates_until_exhausted sampleConfig ⟨okSetup, twoThen noContentBatch⟩
    (some [9, 9]) [[1, 5], [2]] 3 (by decide) (by decide) (by decide) (by decide)

/-- C2, as stated, fails: with `startOffset = 0` and `batchSize = 2^63 - 1`
the request of iteration 1 carries `start = 2^63 - 1` and `end = -2`, because
`start + batchSize` overflows the Go `int`, whereas the claim gives
`end = (0 + 1) * batchSize + batchSize = 2^64 - 2`. -/
theorem request_range_overflow :
    0 ≤ hugeBatchConfig.startOffset ∧ 0 < hugeBatchConfig.batchSize ∧
      ((Action 2 hugeBatchConfig ⟨okSetup, twoThen noContentBatch⟩ none).requests.map
        (fun r => (r.startParam, r.endParam)))[1]? = some (2 ^ 63 - 1, -2) ∧
      (hugeBatchConfig.startOffset + 1) * hugeBatchConfig.batchSize
        + hugeBatchConfig.batchSize = 2 ^ 64 - 2 := by
  decide

/-- C2, amended: for `startOffset ≥ 0`, `batchSize > 0` and every `i` with
`(startOffset + i) * batchSize + batchSize < 2^63`, the `i`-th request of a
run (counted from 0), when the run gets that far, carries
`start = (startOffset + i) * batchSize` and
`end = (startOffset + i) * batchSize + batchSize`. -/
theorem request_range (cfg : Config) (env : Env) (prior : Option (List Byte)) (fuel i : Nat)
    (req : Request) (hso : 0 ≤ cfg.startOffset) (hbs : 0 < cfg.batchSize)
    (hrange : (cfg.startOffset + i) * cfg.batchSize + cfg.batchSize < 2 ^ 63)
    (hreq : (Action fuel cfg env prior).requests[i]? = some req) :
    req.startParam = (cfg.startOffset + i) * cfg.batchSize ∧
    req.endParam = (cfg.startOffset + i) * cfg.batchSize + cfg.batchSize := by
  have hreqs : ∃ m, (Action fuel cfg env prior).requests
      = requestsFrom cfg cfg.startOffset m := by
    unfold Action
    split
    · exact ⟨0, rfl⟩
    · split
      · exact ⟨0, rfl⟩
      · split
        · exact ⟨0, rfl⟩
        · obtain ⟨m, _, h⟩ := loop_requests cfg env.batches fuel (initialState cfg)
          exact ⟨m, by simpa [initialState] using h⟩
  obtain ⟨m, hm⟩ := hreqs
  rw [hm, requestsFrom, List.getElem?_map] at hreq
  have hreq2 : req = requestFor cfg (startAt cfg.startOffset i) := by
    cases hri : (List.range m)[i]? with
    | none => rw [hri] at hreq; simp at hreq
    | some j =>
      rw [hri] at hreq
      have hj : j = i := by
        have := List.getElem?_eq_some_iff.mp hri
        obtain ⟨hlt, hget⟩ := this
        simpa using hget.symm
      subst hj
      simpa using hreq.symm
  have hprod : cfg.startOffset + i ≤ (cfg.startOffset + i) * cfg.batchSize := by
    have h0 : 0 ≤ cfg.startOffset + (i : Int) := by positivity
    nlinarith
  have hidx : startAt cfg.startOffset i = cfg.startOffset + i :=
    startAt_eq_add _ _ (by omega) (by omega)
  have hnn : 0 ≤ (cfg.startOffset + i) * cfg.batchSize := by positivity
  have hmul : goMul (cfg.startOffset + i) cfg.batchSize
      = (cfg.startOffset + i) * cfg.batchSize := by
    unfold goMul
    exact wrapInt_of_inRange _ (by omega) (by omega)
  subst hreq2
  simp only [requestFor, mkRequest, hidx, hmul]
  refine ⟨trivial, ?_⟩
  unfold goAdd
  exact wrapInt_of_inRange _ (by omega) (by omega)

/-- Witness of C2 amended: the default sizes, iteration 2. -/
theorem request_range_witness :
    (Action 3 sampleConfig ⟨okSetup, twoThen noContentBatch⟩ none).requests[2]?
        = some (requestFor sampleConfig 2) ∧
      (requestFor sampleConfig 2).startParam = (0 + (2 : Nat)) * 2000 ∧
      (requestFor sampleConfig 2).endParam = (0 + (2 : Nat)) * 2000 + 2000 :=
  ⟨by decide,
    request_range sampleConfig ⟨okSetup, twoThen noContentBatch⟩ none 3 2
      (requestFor sampleConfig 2) (by decide) (by decide) (by decide) (by decide)⟩

/-- C3: the code does not do what the claim says.  For the command line
`download --token key --pull-zone-id 7 --start-offset 5` the variable
`startOffset`, from which the loop starts, is still 0, and `batchSize` is 5
instead of 2000, because the `start-offset` flag has `batchSize` as its
`Value` and `&batchSize` as its `Destination`; the first two requests of the
run are for the ranges `[0, 5)` and `[5, 10)`, where the claim has the loop
start at batch index 5 with batch size 2000, at the range `[10000, 12000)`. -/
theorem start_offset_flag_sets_batch_size :
    parseCommandLine [("pull-zone-id", 7), ("start-offset", 5)]
        = some { pullZoneId := 7, startOffset := 0, batchSize := 5 } ∧
      (parseCommandLine [("pull-zone-id", 7), ("start-offset", 5)]).map
          (fun g => (Action 2 (configOf "key" sampleConfig.date g) ⟨okSetup, alwaysData⟩
            none).requests.map (fun r => (r.startParam, r.endParam)))
        = some [(0, 5), (5, 10)] := by
  decide

/-- C4: if the requests of iterations `0..k-1` are answered with non-empty
bodies `bs[0], ..., bs[k-1]` and the request of iteration `k` fails in
transport with `err`, the run, given more than `k` loop bodies of fuel,
returns at iteration `k` the error
`download batch with start <k-th batch index>: perform request: <err>`, which
wraps `err`; it has issued `k + 1` requests (the failed one once, no retry)
and completed `k` iterations, and the output file holds exactly the
concatenation of the `k` bodies, whatever it held before the run.  The file
system calls are assumed to succeed. -/
theorem transport_error_aborts (cfg : Config) (env : Env) (prior : Option (List Byte))
    (bs : List (List Byte)) (fuel : Nat) (err : GoError)
    (hsetup : env.setup.Ok)
    (hbs : ∀ i (h : i < bs.length), (env.batches i).Delivers bs[i])
    (herr : (env.batches bs.length).TransportError err)
    (hfuel : bs.length < fuel) :
    (Action fuel cfg env prior).status
      = Status.returned (some (.errorf "download batch with start %v: %w"
          [batchIndex cfg bs.length] (.errorf "perform request: %w" [] err))) ∧
    (GoError.errorf "download batch with start %v: %w"
        [batchIndex cfg bs.length] (.errorf "perform request: %w" [] err)).wraps err = true ∧
    (Action fuel cfg env prior).file = some bs.flatten ∧
    (Action fuel cfg env prior).requests.length = bs.length + 1 ∧
    (Action fuel cfg env prior).completed = bs.length := by
  obtain ⟨d, rfl⟩ := exists_fuel_of_lt _ _ hfuel
  rw [Action_eq_loop _ _ _ _ hsetup,
    loop_aborted cfg env.batches bs d (initialState cfg) _ rfl
      (initial_delivers cfg env.batches bs hbs)
      (body_transportError cfg _ _ err (by simpa [initialState] using herr))]
  refine ⟨?_, ?_, ?_, ?_, ?_⟩
  · simp [abort, advance_start, initialState, batchIndex]
  · exact wraps_errorf _ _ _ _ (wraps_errorf _ _ _ _ (wraps_self err))
  · simp [abort, advance_file, initialState]
  · simp [abort, advance_requests, initialState, requestsFrom]
  · simp [abort, advance_calls, initialState]

/-- Witness of C4: two bodies, then a refused connection, over a file that
held two bytes. -/
theorem transport_error_aborts_witness :
    (Action 3 sampleConfig ⟨okSetup, twoThen refusedBatch⟩ (some [9, 9])).status
        = Status.returned (some (.errorf "download batch with start %v: %w"
            [batchIndex sampleConfig 2]
            (.errorf "perform request: %w" [] (GoError.lib "dial tcp: connection refused")))) ∧
      (GoError.errorf "download batch with start %v: %w" [batchIndex sampleConfig 2]
          (.errorf "perform request: %w" []
            (GoError.lib "dial tcp: connection refused"))).wraps
        (GoError.lib "dial tcp: connection refused") = true ∧
      (Action 3 sampleConfig ⟨okSetup, twoThen refusedBatch⟩ (some [9, 9])).file
        = some [[1, 5], [2]].flatten ∧
      (Action 3 sampleConfig ⟨okSetup, twoThen refusedBatch⟩ (some [9, 9])).requests.length
        = 2 + 1 ∧
      (Action 3 sampleConfig ⟨okSetup, twoThen refusedBatch⟩ (some [9, 9])).completed = 2 :=
  transport_error_aborts sampleConfig ⟨okSetup, twoThen refusedBatch⟩ (some [9, 9])
    [[1, 5], [2]] 3 (GoError.lib "dial tcp: connection refused")
    (by decide) (by decide) (by decide) (by decide)

/-- C5: replacing, in any sequence of batch environments, one that is
answered with HTTP 204 by one that is answered with HTTP 200 (or any status
other than 204) and a body that is empty or decompresses to zero bytes (the
file being opened and closed without error in the latter case) gives the same
run for every fuel: the same status, the same requests, the same lines and
the same output file. -/
theorem empty_body_same_as_no_content (cfg : Config) (setup : SetupEnv) (E : Nat → BatchEnv)
    (k : Nat) (e : BatchEnv) (prior : Option (List Byte)) (fuel : Nat)
    (h204 : (E k).NoContent) (hempty : e.EmptyBody) :
    Action fuel cfg ⟨setup, Function.update E k e⟩ prior = Action fuel cfg ⟨setup, E⟩ prior := by
  unfold Action
  simp only [loop_update_empty cfg E k e h204 hempty fuel]

/-- Witness of C5: the 204 that ends the sample run replaced by an empty body. -/
theorem empty_body_same_as_no_content_witness :
    Action 5 sampleConfig ⟨okSetup, Function.update (twoThen noContentBatch) 2 emptyStreamBatch⟩
        none
      = Action 5 sampleConfig ⟨okSetup, twoThen noContentBatch⟩ none :=
  empty_body_same_as_no_content sampleConfig okSetup (twoThen noContentBatch) 2
    emptyStreamBatch none 5 (by decide) (by decide)

/-- C6: when the output folder and file can be created, the result of a run,
the content of the output file included, does not depend on what the file
held before; so a second run against the same environment, started on the
file the first run left, leaves the file as the first run left it. -/
theorem rerun_rewrites_identically (cfg : Config) (env : Env) (fuel : Nat)
    (prior other : Option (List Byte))
    (hmkdir : env.setup.mkdirAll = none) (hcreate : env.setup.create = none) :
    Action fuel cfg env prior = Action fuel cfg env other ∧
    (Action fuel cfg env (Action fuel cfg env prior).file).file
      = (Action fuel cfg env prior).file := by
  have h : ∀ p q, Action fuel cfg env p = Action fuel cfg env q := by
    intro p q
    simp [Action, hmkdir, hcreate]
  exact ⟨h _ _, by rw [h (Action fuel cfg env prior).file prior]⟩

/-- Witness of C6: the sample run over a missing file and over a file of two bytes. -/
theorem rerun_rewrites_identically_witness :
    Action 3 sampleConfig ⟨okSetup, twoThen noContentBatch⟩ none
        = Action 3 sampleConfig ⟨okSetup, twoThen noContentBatch⟩ (some [9, 9]) ∧
      (Action 3 sampleConfig ⟨okSetup, twoThen noContentBatch⟩
          (Action 3 sampleConfig ⟨okSetup, twoThen noContentBatch⟩ none).file).file
        = (Action 3 sampleConfig ⟨okSetup, twoThen noContentBatch⟩ none).file :=
  rerun_rewrites_identically sampleConfig ⟨okSetup, twoThen noContentBatch⟩ 3 none
    (some [9, 9]) rfl rfl

/-- C7, as stated, fails: when the first request is refused, the iteration of
batch index 0 is executed (its request is issued) and 0 is a multiple of 10,
but the action returns before the progress line, so nothing is printed. -/
theorem progress_skipped_on_error :
    (Action 1 sampleConfig ⟨okSetup, refusedAtOnce⟩ none).requests
        = [requestFor sampleConfig (batchIndex sampleConfig 0)] ∧
      goRem (batchIndex sampleConfig 0) 10 = 0 ∧
      progressOf (Action 1 sampleConfig ⟨okSetup, refusedAtOnce⟩ none).stdout = [] := by
  decide

/-- C7, amended: the progress lines of a run are exactly the multiples of 10
among the batch indices of its completed iterations, those whose
`downloadBatch` returned no error, in ascending order (for `startOffset ≥ 0`
and batch indices within the range of `int`). -/
theorem progress_of_completed (cfg : Config) (env : Env) (prior : Option (List Byte))
    (fuel : Nat) (hso : 0 ≤ cfg.startOffset)
    (hrange : cfg.startOffset + (Action fuel cfg env prior).completed ≤ 2 ^ 63) :
    progressOf (Action fuel cfg env prior).stdout
      = ((List.range (Action fuel cfg env prior).completed).map
          (fun (i : Nat) => cfg.startOffset + (i : Int))).filter (fun x => decide (x % 10 = 0)) ∧
    List.Pairwise (fun a b => a < b) (progressOf (Action fuel cfg env prior).stdout) := by
  have hgen : progressOf (Action fuel cfg env prior).stdout
      = progressFrom cfg.startOffset (Action fuel cfg env prior).completed := by
    unfold Action
    split
    · rfl
    · split
      · rfl
      · split
        · rfl
        · obtain ⟨_, _, h⟩ := loop_progress cfg env.batches fuel (initialState cfg)
          simpa [initialState, progressOf] using h
  have hmap : (List.range (Action fuel cfg env prior).completed).map (startAt cfg.startOffset)
      = (List.range (Action fuel cfg env prior).completed).map
          (fun (i : Nat) => cfg.startOffset + (i : Int)) := by
    apply List.map_congr_left
    intro i hi
    have hi1 : i < (Action fuel cfg env prior).completed := List.mem_range.mp hi
    exact startAt_eq_add _ _ (by omega) (by omega)
  have heq : progressOf (Action fuel cfg env prior).stdout
      = ((List.range (Action fuel cfg env prior).completed).map
          (fun (i : Nat) => cfg.startOffset + (i : Int))).filter (fun x => decide (x % 10 = 0)) := by
    rw [hgen, progressFrom, hmap]
    apply List.filter_congr
    intro x _
    simp [goRem_ten_eq_zero_iff]
  refine ⟨heq, ?_⟩
  rw [heq]
  apply List.Pairwise.filter
  rw [List.pairwise_map]
  exact List.Pairwise.imp (fun {a b} (h : a < b) => by omega) (List.pairwise_lt_range _)

/-- Witness of C7 amended: the sample run prints the progress line of batch 0 only. -/
theorem progress_of_completed_witness :
    progressOf (Action 3 sampleConfig ⟨okSetup, twoThen noContentBatch⟩ none).stdout
        = ((List.range (Action 3 sampleConfig ⟨okSetup, twoThen noContentBatch⟩ none).completed).map
            (fun (i : Nat) => sampleConfig.startOffset + (i : Int))).filter
              (fun x => decide (x % 10 = 0)) ∧
      List.Pairwise (fun a b => a < b)
        (progressOf (Action 3 sampleConfig ⟨okSetup, twoThen noContentBatch⟩ none).stdout) :=
  progress_of_completed sampleConfig ⟨okSetup, twoThen noContentBatch⟩ none 3
    (by decide) (by decide)

/-- C8, as stated, fails: against a server that answers every request with
HTTP 204 the run has returned `nil` after one iteration. -/
theorem no_content_source_terminates :
    (∀ n, (alwaysNoContent n).NoContent) ∧
      (Action 1 sampleConfig ⟨okSetup, alwaysNoContent⟩ none).status = Status.returned none ∧
      ¬ ∀ n, (Action n sampleConfig ⟨okSetup, alwaysNoContent⟩ none).status
        = Status.running :=
  ⟨fun _ => (by decide : noContentBatch.NoContent), by decide,
    fun h => absurd (h 1) (by decide)⟩

/-- C8, amended: the loop has no iteration cap, and against a server that
answers every request with a non-empty body it never ends: for every `n` the
run is still running after `n` loop bodies, all `n` completed. -/
theorem data_source_never_terminates (cfg : Config) (env : Env) (prior : Option (List Byte))
    (b : Nat → List Byte) (n : Nat) (hsetup : env.setup.Ok)
    (hdata : ∀ i, (env.batches i).Delivers (b i)) :
    (Action n cfg env prior).status = Status.running ∧
    (Action n cfg env prior).completed = n := by
  have hlen : ((List.range n).map b).length = n := by simp
  have hbs : ∀ i (h : i < ((List.range n).map b).length),
      (env.batches ((initialState cfg).calls + i)).Delivers ((List.range n).map b)[i] := by
    intro i h
    simpa [initialState] using hdata i
  have hrun := loop_advance cfg env.batches ((List.range n).map b) 0 (initialState cfg) rfl hbs
  rw [hlen, Nat.add_zero] at hrun
  have hm := advance_more cfg ((List.range n).map b) (initialState cfg) rfl
  have hc := advance_calls cfg ((List.range n).map b) (initialState cfg)
  rw [Action_eq_loop _ _ _ _ hsetup, hrun]
  simp only [loop, hm, if_true, suspend, hc, hlen]
  exact ⟨trivial, by simp [initialState]⟩

/-- Witness of C8 amended: four loop bodies against a server that always has data. -/
theorem data_source_never_terminates_witness :
    (Action 4 sampleConfig ⟨okSetup, alwaysData⟩ none).status = Status.running ∧
      (Action 4 sampleConfig ⟨okSetup, alwaysData⟩ none).completed = 4 :=
  data_source_never_terminates sampleConfig ⟨okSetup, alwaysData⟩ none (fun n => [n]) 4
    (by decide)
    (fun _ => ⟨⟨rfl, rfl, (by decide : StatusOK ≠ StatusNoContent)⟩,
      ⟨rfl, rfl, rfl, rfl, rfl⟩, by simp⟩)

/-- C9: if the requests of iterations `0..k-1` are answered with non-empty
bodies `bs[0], ..., bs[k-1]` and the gzip stream of the answer to the request
of iteration `k` yields the bytes `p` and then a decode error `err` other than
`io.EOF`, the run, given more than `k` loop bodies of fuel, returns an error
that wraps `err`, and the output file holds the `k` bodies followed by `p`:
the bytes of the failed batch stay in the file. -/
theorem decode_error_keeps_partial_batch (cfg : Config) (env : Env)
    (prior : Option (List Byte)) (bs : List (List Byte)) (p : List Byte) (fuel : Nat)
    (err : GoError) (hsetup : env.setup.Ok)
    (hbs : ∀ i (h : i < bs.length), (env.batches i).Delivers bs[i])
    (herr : (env.batches bs.length).DecodeError p err)
    (hfuel : bs.length < fuel) :
    (∃ ctx, (Action fuel cfg env prior).status
      = Status.returned (some (.errorf "download batch with start %v: %w"
          [batchIndex cfg bs.length] (.errorf ctx [] err)))) ∧
    (∃ e, (Action fuel cfg env prior).status = Status.returned (some e) ∧ e.wraps err = true) ∧
    (Action fuel cfg env prior).file = some (bs.flatten ++ p) := by
  obtain ⟨d, rfl⟩ := exists_fuel_of_lt _ _ hfuel
  obtain ⟨ctx, hctx⟩ := body_decodeError cfg (env.batches ((initialState cfg).calls + bs.length))
    (advance cfg (initialState cfg) bs) p err (by simpa [initialState] using herr)
  rw [Action_eq_loop _ _ _ _ hsetup,
    loop_aborted cfg env.batches bs d (initialState cfg) _ rfl
      (initial_delivers cfg env.batches bs hbs) hctx]
  have hst : (abort (advance cfg (initialState cfg) bs) (GoError.errorf ctx [] err)
        { (advance cfg (initialState cfg) bs).world with
          file := (advance cfg (initialState cfg) bs).world.file ++ p
          requests := (advance cfg (initialState cfg) bs).world.requests ++
            [requestFor cfg (advance cfg (initialState cfg) bs).start] }).status
      = Status.returned (some (.errorf "download batch with start %v: %w"
          [batchIndex cfg bs.length] (.errorf ctx [] err))) := by
    simp [abort, advance_start, initialState, batchIndex]
  refine ⟨⟨ctx, hst⟩, ⟨_, hst, ?_⟩, ?_⟩
  · exact wraps_errorf _ _ _ _ (wraps_errorf _ _ _ _ (wraps_self err))
  · simp [abort, advance_file, initialState]

/-- Witness of C9: two bodies, then a stream that breaks off after three bytes. -/
theorem decode_error_keeps_partial_batch_witness :
    (∃ ctx, (Action 3 sampleConfig ⟨okSetup, twoThen (truncatedBatch [7, 7, 7])⟩ none).status
        = Status.returned (some (.errorf "download batch with start %v: %w"
            [batchIndex sampleConfig 2] (.errorf ctx [] (GoError.lib "unexpected EOF"))))) ∧
      (∃ e, (Action 3 sampleConfig ⟨okSetup, twoThen (truncatedBatch [7, 7, 7])⟩ none).status
          = Status.returned (some e) ∧ e.wraps (GoError.lib "unexpected EOF") = true) ∧
      (Action 3 sampleConfig ⟨okSetup, twoThen (truncatedBatch [7, 7, 7])⟩ none).file
        = some ([[1, 5], [2]].flatten ++ [7, 7, 7]) :=
  decode_error_keeps_partial_batch sampleConfig ⟨okSetup, twoThen (truncatedBatch [7, 7, 7])⟩
    none [[1, 5], [2]] [7, 7, 7] 3 (GoError.lib "unexpected EOF")
    (by decide) (by decide) (by decide) (by decide)

/-- C10, as stated, fails: a first answer with HTTP 500 and a gzip body that
decompresses to three bytes is not an HTTP 200, yet the body is appended and
a second request is issued. -/
theorem run_continues_after_non_200 :
    (serverErrorThenNoContent 0).statusCode ≠ StatusOK ∧
      (Action 2 sampleConfig ⟨okSetup, serverErrorThenNoContent⟩ none).requests.length = 2 ∧
      (Action 2 sampleConfig ⟨okSetup, serverErrorThenNoContent⟩ none).file
        = some [4, 0, 4] := by
  decide

/-- C10, amended: the run issues its requests for the consecutive batch
indices `startOffset, startOffset + 1, ...` in ascending order, one request
per index, and none after the first request whose answer is not a status other
than 204 with a non-empty decompressed body: if that is the request of
iteration `j`, the run returns having made exactly `j + 1` requests (for
`startOffset ≥ 0` and batch indices within the range of `int`). -/
theorem requests_stop_at_first_non_data (cfg : Config) (env : Env)
    (prior : Option (List Byte)) (bs : List (List Byte)) (fuel : Nat)
    (hsetup : env.setup.Ok) (hso : 0 ≤ cfg.startOffset)
    (hrange : cfg.startOffset + bs.length < 2 ^ 63)
    (hbs : ∀ i (h : i < bs.length), (env.batches i).Delivers bs[i])
    (hreq : (env.batches bs.length).newRequest = none)
    (hstop : ¬ ∃ b, (env.batches bs.length).Delivers b)
    (hfuel : bs.length < fuel) :
    (∃ err, (Action fuel cfg env prior).status = Status.returned err) ∧
    (Action fuel cfg env prior).requests
      = (List.range (bs.length + 1)).map
          (fun (i : Nat) => requestFor cfg (cfg.startOffset + (i : Int))) ∧
    (Action fuel cfg env prior).requests.length = bs.length + 1 := by
  obtain ⟨d, rfl⟩ := exists_fuel_of_lt _ _ hfuel
  have hm := advance_more cfg bs (initialState cfg) rfl
  have hc : (advance cfg (initialState cfg) bs).calls = bs.length := by
    simp [advance_calls, initialState]
  obtain ⟨hst, hrq⟩ := loop_stops cfg env.batches d (advance cfg (initialState cfg) bs) hm
    (by rw [hc]; exact hreq) (by rw [hc]; exact hstop)
  rw [Action_eq_loop _ _ _ _ hsetup,
    loop_advance cfg env.batches bs (d + 1) (initialState cfg) rfl
      (initial_delivers cfg env.batches bs hbs)]
  have hreqs : (loop cfg env.batches (d + 1) (advance cfg (initialState cfg) bs)).requests
      = (List.range (bs.length + 1)).map
          (fun (i : Nat) => requestFor cfg (cfg.startOffset + (i : Int))) := by
    rw [hrq, advance_requests, advance_start, List.range_succ, List.map_append]
    simp only [initialState, List.nil_append, requestsFrom, List.map_cons, List.map_nil]
    congr 1
    · apply List.map_congr_left
      intro i hi
      have hi1 : i < bs.length := List.mem_range.mp hi
      rw [startAt_eq_add _ _ (by omega) (by omega)]
    · rw [startAt_eq_add _ _ (by omega) (by omega)]
  exact ⟨hst, hreqs, by rw [hreqs]; simp⟩

/-- Witness of C10 amended: two bodies and then a refused connection make
three requests. -/
theorem requests_stop_at_first_non_data_witness :
    (∃ err, (Action 3 sampleConfig ⟨okSetup, twoThen refusedBatch⟩ none).status
        = Status.returned err) ∧
      (Action 3 sampleConfig ⟨okSetup, twoThen refusedBatch⟩ none).requests
        = (List.range (2 + 1)).map
            (fun (i : Nat) => requestFor sampleConfig (sampleConfig.startOffset + (i : Int))) ∧
      (Action 3 sampleConfig ⟨okSetup, twoThen refusedBatch⟩ none).requests.length = 2 + 1 :=
  requests_stop_at_first_non_data sampleConfig ⟨okSetup, twoThen refusedBatch⟩ none
    [[1, 5], [2]] 3 (by decide) (by decide) (by decide) (by decide) (by decide)
    (by rintro ⟨b, h⟩; exact absurd h.1.2.1 (by decide)) (by decide)

end BunnyLogs
